import Mathlib

/-!
Verification of `src/Dataset.hpp` (random-array-generator)

Shallow embedding of the C++ template class `Dataset<T, size, dataT>`.

Modelling conventions:
* The element type `T` (a signed or unsigned integral type) is modelled as
  `Int`; no arithmetic is performed on element values in the source, only
  comparisons and the implicit conversion to `size_t` in the sort lambdas,
  which is modelled explicitly as reduction modulo `2 ^ 64` (`toSizeT`).
* The member array `T dataset[size]` is modelled as a `List Int`; writes by
  index become `List.set`.
* The Mersenne-Twister draws are modelled by explicit streams: `vals k` is
  the k-th draw of `uniform_int_distribution<T>(min, max)`, `sampleIdx k`
  the k-th draw of `randomSampleIndex`, and `idx k` the k-th draw of
  `randomIndex`.  The C++ distributions guarantee each draw lies in the
  requested closed range; theorems take exactly those facts as hypotheses.
* `throw std::invalid_argument` is modelled by a `Bool` flag paired with the
  buffer contents (the throw happens before any write, so the buffer is
  returned unchanged in that case), and by `Option` for the constructor
  (construction aborts, no instance exists).
* `sqrt` on `double` is exactly rounded, so for any realistic array size
  (below `2 ^ 52`) `size_t amount = sqrt(size)` equals `Nat.sqrt size`, and
  `sqrt(sqrt(size))` equals `Nat.sqrt (Nat.sqrt size)`.
-/

/-- The five dataset kinds, from `enum class DT { RANDOM, SORTED,
REVERSE_SORTED, NEARLY_SORTED, FEW_UNIQUE }` (Dataset.hpp, line 34). -/
inductive DT
  | RANDOM
  | SORTED
  | REVERSE_SORTED
  | NEARLY_SORTED
  | FEW_UNIQUE
deriving DecidableEq

/-- C++ implicit conversion of an element value to `size_t` (64 bits):
reduction modulo `2 ^ 64`.  The sort lambdas at lines 123 and 130 declare
their parameters as `size_t`, so every element is converted through this
before being compared. -/
def toSizeT (v : Int) : Nat := (v % (2 ^ 64 : Int)).toNat

/-- The comparator lambda at line 123, `[](size_t i, size_t j) {return i < j;}`,
acting on element values after the implicit `size_t` conversion. -/
def ltSizeT (a b : Int) : Prop := toSizeT a < toSizeT b

instance : DecidableRel ltSizeT :=
fun a b => inferInstanceAs (Decidable (toSizeT a < toSizeT b))

/-- The comparator lambda at line 130, `[](size_t i, size_t j) {return i > j;}`,
acting on element values after the implicit `size_t` conversion. -/
def gtSizeT (a b : Int) : Prop := toSizeT a > toSizeT b

instance : DecidableRel gtSizeT :=
fun a b => inferInstanceAs (Decidable (toSizeT a > toSizeT b))

/-- Model of `std::swap(dataset[i], dataset[j])`: write the old `dataset[j]` into slot
`i` and the old `dataset[i]` into slot `j`.  (All call sites draw `i`, `j`
from `[0, size-1]`, so the default of `getD` is never used in-bounds.) -/
def listSwap (l : List Int) (i j : Nat) : List Int :=
  (l.set i (l.getD j 0)).set j (l.getD i 0)

/-- A `for` loop of swaps: one `std::swap(dataset[p.1], dataset[p.2])` per
drawn index pair, applied in order. -/
def applySwaps : List (Nat × Nat) → List Int → List Int
  | [], l => l
  | p :: ps, l => applySwaps ps (listSwap l p.1 p.2)

/-- Value of `size_t amount = sqrt(sqrt(size))` (line 138): the number of perturbation
swaps done for NEARLY_SORTED, i.e. the floor of the fourth root of `size`. -/
def nearlySortedSwapCount (size : Nat) : Nat := Nat.sqrt (Nat.sqrt size)

/-- Member function `genRandomData(min, max)` (lines 99-146), used for the kinds RANDOM,
SORTED, REVERSE_SORTED and NEARLY_SORTED.  Behaviour, as in the source:
throw if `max < min` (before any write); fill all `size` slots with draws of
`uniform_int_distribution<T>(min, max)`; for SORTED and NEARLY_SORTED sort
by the line-123 comparator; for REVERSE_SORTED sort by the line-130
comparator; for NEARLY_SORTED additionally perform
`nearlySortedSwapCount size` swaps of independently drawn index pairs
(the k-th swap uses index draws `idx (2*k)` and `idx (2*k+1)`).
`std::sort` produces a permutation of the slots that is sorted with respect
to the comparator; since two element values with the same residue modulo
`2 ^ 64` are equal on any C++ integral range, that output list is unique and
`List.insertionSort` with the same comparator computes it.
Result: the buffer contents after the call, paired with `true` iff
`std::invalid_argument` was thrown. -/
def genRandomData (dataT : DT) (size : Nat) (buf : List Int) (min max : Int)
    (vals : Nat → Int) (idx : Nat → Nat) : List Int × Bool :=
  if max < min then (buf, true)
  else
    let base := (List.range size).map vals
    let shaped :=
      if dataT = DT.SORTED ∨ dataT = DT.NEARLY_SORTED then List.insertionSort ltSizeT base
      else if dataT = DT.REVERSE_SORTED then List.insertionSort gtSizeT base
      else base
    if dataT = DT.NEARLY_SORTED then
      (applySwaps ((List.range (nearlySortedSwapCount size)).map
        (fun k => (idx (2 * k), idx (2 * k + 1)))) shaped, false)
    else (shaped, false)

/-- Member function `genUniqueData(min, max)` (lines 149-199), used for FEW_UNIQUE.
Behaviour, as in the source: throw if `max < min` (before any write);
`amount = sqrt(size)`; fill slots `0..amount-1` with draws of
`uniform_int_distribution<T>(min, max)` (the sample pool); fill each slot
`amount..size-1` with `dataset[randomSampleIndex(RNG)]` — the pool slots are
never overwritten during this phase, so the value copied is the original
pool draw; finally for `j = 0..amount-1` perform
`std::swap(dataset[j], dataset[randomIndex(RNG)])`. -/
def genUniqueData (size : Nat) (buf : List Int) (min max : Int)
    (vals : Nat → Int) (sampleIdx : Nat → Nat) (idx : Nat → Nat) : List Int × Bool :=
  if max < min then (buf, true)
  else
    let amount := Nat.sqrt size
    let pool := (List.range amount).map vals
    let filled := pool ++ (List.range (size - amount)).map (fun k => pool.getD (sampleIdx k) 0)
    (applySwaps ((List.range amount).map (fun j => (j, idx j))) filled, false)

/-- Member function `genNewData(min, max)` (lines 205-213).  Note the source forwards its
arguments **swapped**: it calls `genUniqueData(max, min)` for FEW_UNIQUE and
`genRandomData(max, min)` otherwise. -/
def genNewData (dataT : DT) (size : Nat) (buf : List Int) (min max : Int)
    (vals : Nat → Int) (sampleIdx : Nat → Nat) (idx : Nat → Nat) : List Int × Bool :=
  if dataT = DT.FEW_UNIQUE then genUniqueData size buf max min vals sampleIdx idx
  else genRandomData dataT size buf max min vals idx

/-- The constructor `Dataset(min, max)` (lines 86-94): throw
`std::invalid_argument` if `max < min` (aborting object creation, modelled
by `none`), otherwise call `genNewData(max, min)` — the swap there cancels
the swap inside `genNewData`.  The uninitialised member array is modelled as
zeros; on the non-throwing path it is fully overwritten before any read.
An exception escaping `genNewData` would also abort construction. -/
def datasetInit (dataT : DT) (size : Nat) (min max : Int)
    (vals : Nat → Int) (sampleIdx : Nat → Nat) (idx : Nat → Nat) : Option (List Int) :=
  if max < min then none
  else
    let r := genNewData dataT size (List.replicate size 0) max min vals sampleIdx idx
    if r.2 then none else some r.1

/-- The container state: member array `T dataset[size]` (modelled as a list
together with the array's base address) and `const size_t length = size`. -/
structure Dataset where
  base : Nat
  size : Nat
  data : List Int
  hlen : data.length = size

/-- Iterator `begin()` (lines 239-244): `&dataset[0]`, the base address. -/
def Dataset.beginPtr (d : Dataset) : Nat := d.base

/-- Iterator `end()` (lines 248-253): `&dataset[0] + length`. -/
def Dataset.endPtr (d : Dataset) : Nat := d.base + d.size

/-- Accessor `get()` (lines 216-221): `&dataset[0]`. -/
def Dataset.getPtr (d : Dataset) : Nat := d.base

/-- Dereferencing a pointer into the array: `*(p)` reads the slot at offset
`p - base`. -/
def Dataset.deref (d : Dataset) (p : Nat) : Int := d.data.getD (p - d.base) 0

/-- Overload `operator[]` (lines 266-270): unchecked indexed access `dataset[index]`. -/
def Dataset.opIndex (d : Dataset) (i : Nat) : Int := d.data.getD i 0

/-- Spec-side definition (not from the source): the non-decreasing
rearrangement of a list under the ordinary `Int` order — the
"non-decreasing sorted permutation of itself" of claim C6. -/
def sortAscInt (l : List Int) : List Int := List.insertionSort (fun a b => a ≤ b) l

/-- Spec-side definition (not from the source): the number of positions at
which two (equal-length) lists differ. -/
def diffPositions (l m : List Int) : Nat :=
  ((List.range l.length).filter (fun i => l.getD i 0 != m.getD i 0)).length

/-! ## Arithmetic facts about `Nat.sqrt` at the small sizes used below -/

theorem sqrt_two_eq : Nat.sqrt 2 = 1 := by
  symm
  rw [Nat.eq_sqrt]
  decide

theorem sqrt_three_eq : Nat.sqrt 3 = 1 := by
  symm
  rw [Nat.eq_sqrt]
  decide

theorem sqrt_four_eq : Nat.sqrt 4 = 2 := by
  symm
  rw [Nat.eq_sqrt]
  decide

theorem sqrt_five_eq : Nat.sqrt 5 = 2 := by
  symm
  rw [Nat.eq_sqrt]
  decide

theorem nearlySortedSwapCount_small (size : Nat) (h1 : 1 ≤ size) (h4 : size < 4) :
    nearlySortedSwapCount size = 1 := by
  unfold nearlySortedSwapCount
  interval_cases size
  · rw [Nat.sqrt_one, Nat.sqrt_one]
  · rw [sqrt_two_eq, Nat.sqrt_one]
  · rw [sqrt_three_eq, Nat.sqrt_one]

/-! ## Basic lemmas about the swap loops -/

theorem length_listSwap (l : List Int) (i j : Nat) : (listSwap l i j).length = l.length := by
  simp [listSwap]

theorem getD_mem_of_lt {l : List Int} {i : Nat} (h : i < l.length) : l.getD i 0 ∈ l := by
  rw [List.getD_eq_getElem l 0 h]
  exact List.getElem_mem h

theorem mem_listSwap {l : List Int} {i j : Nat} (hi : i < l.length) (hj : j < l.length)
    {x : Int} (hx : x ∈ listSwap l i j) : x ∈ l := by
  unfold listSwap at hx
  rcases List.mem_or_eq_of_mem_set hx with h1 | rfl
  · rcases List.mem_or_eq_of_mem_set h1 with h2 | rfl
    · exact h2
    · exact getD_mem_of_lt hj
  · exact getD_mem_of_lt hi

theorem length_applySwaps : ∀ (ps : List (Nat × Nat)) (l : List Int),
    (applySwaps ps l).length = l.length
  | [], _ => rfl
  | p :: ps, l => (length_applySwaps ps _).trans (length_listSwap l p.1 p.2)

theorem mem_applySwaps (ps : List (Nat × Nat)) : ∀ (l : List Int),
    (∀ p ∈ ps, p.1 < l.length ∧ p.2 < l.length) → ∀ x : Int, x ∈ applySwaps ps l → x ∈ l := by
  induction ps with
  | nil => intro l _ x hx; exact hx
  | cons p ps ih =>
    intro l hb x hx
    have hp := hb p (List.mem_cons_self p ps)
    apply mem_listSwap hp.1 hp.2
    refine ih (listSwap l p.1 p.2) ?_ x hx
    intro q hq
    rw [length_listSwap]
    exact hb q (List.mem_cons_of_mem p hq)

/-! ## Throw-flag and length characterisations of the generators -/

theorem genRandomData_snd (dataT : DT) (size : Nat) (buf : List Int) (min max : Int)
    (vals : Nat → Int) (idx : Nat → Nat) :
    (genRandomData dataT size buf min max vals idx).2 = decide (max < min) := by
  unfold genRandomData
  by_cases h : max < min
  · simp [h]
  · simp only [h, if_false, decide_eq_false h]
    split <;> rfl

theorem genUniqueData_snd (size : Nat) (buf : List Int) (min max : Int)
    (vals : Nat → Int) (sampleIdx idx : Nat → Nat) :
    (genUniqueData size buf min max vals sampleIdx idx).2 = decide (max < min) := by
  unfold genUniqueData
  by_cases h : max < min
  · simp [h]
  · simp [h]

theorem genNewData_snd (dataT : DT) (size : Nat) (buf : List Int) (min max : Int)
    (vals : Nat → Int) (sampleIdx idx : Nat → Nat) :
    (genNewData dataT size buf min max vals sampleIdx idx).2 = decide (min < max) := by
  unfold genNewData
  split
  · rw [genUniqueData_snd]
  · rw [genRandomData_snd]

theorem genRandomData_fst_length (dataT : DT) (size : Nat) (buf : List Int) (min max : Int)
    (vals : Nat → Int) (idx : Nat → Nat) (h : ¬ max < min) :
    (genRandomData dataT size buf min max vals idx).1.length = size := by
  cases dataT <;> simp [genRandomData, h, length_applySwaps]

theorem genUniqueData_fst_length (size : Nat) (buf : List Int) (min max : Int)
    (vals : Nat → Int) (sampleIdx idx : Nat → Nat) (h : ¬ max < min) :
    (genUniqueData size buf min max vals sampleIdx idx).1.length = size := by
  have hle := Nat.sqrt_le_self size
  simp [genUniqueData, h, length_applySwaps]
  omega

theorem genRandomData_mem (P : Int → Prop) (dataT : DT) (size : Nat) (buf : List Int)
    (min max : Int) (vals : Nat → Int) (idx : Nat → Nat)
    (h : ¬ max < min) (hvals : ∀ k < size, P (vals k)) (hidx : ∀ k, idx k < size) :
    ∀ x ∈ (genRandomData dataT size buf min max vals idx).1, P x := by
  intro x hx
  have hbase : ∀ y ∈ (List.range size).map vals, P y := by
    intro y hy
    rcases List.mem_map.mp hy with ⟨k, hk, rfl⟩
    exact hvals k (List.mem_range.mp hk)
  cases dataT
  case RANDOM =>
    simp only [genRandomData, if_neg h] at hx
    simp at hx
    rcases hx with ⟨k, hk, rfl⟩
    exact hvals k hk
  case SORTED =>
    simp only [genRandomData, if_neg h] at hx
    simp at hx
    rcases hx with ⟨k, hk, rfl⟩
    exact hvals k hk
  case REVERSE_SORTED =>
    simp only [genRandomData, if_neg h] at hx
    simp at hx
    rcases hx with ⟨k, hk, rfl⟩
    exact hvals k hk
  case NEARLY_SORTED =>
    simp only [genRandomData, if_neg h] at hx
    simp only [reduceCtorEq, or_true, if_true, if_pos rfl] at hx
    have hb : ∀ p ∈ (List.range (nearlySortedSwapCount size)).map
        (fun k => (idx (2 * k), idx (2 * k + 1))),
        p.1 < (List.insertionSort ltSizeT ((List.range size).map vals)).length ∧
        p.2 < (List.insertionSort ltSizeT ((List.range size).map vals)).length := by
      intro p hp
      rcases List.mem_map.mp hp with ⟨k, _, rfl⟩
      simp [hidx]
    have hx2 := mem_applySwaps _ _ hb x (by simpa using hx)
    rw [List.mem_insertionSort] at hx2
    exact hbase x hx2
  case FEW_UNIQUE =>
    simp only [genRandomData, if_neg h] at hx
    simp at hx
    rcases hx with ⟨k, hk, rfl⟩
    exact hvals k hk

theorem genUniqueData_mem (P : Int → Prop) (size : Nat) (buf : List Int)
    (min max : Int) (vals : Nat → Int) (sampleIdx idx : Nat → Nat)
    (h : ¬ max < min) (hvals : ∀ k < Nat.sqrt size, P (vals k))
    (hsidx : ∀ k, sampleIdx k < Nat.sqrt size) (hidx : ∀ k, idx k < size) :
    ∀ x ∈ (genUniqueData size buf min max vals sampleIdx idx).1, P x := by
  intro x hx
  simp only [genUniqueData, if_neg h] at hx
  have hle := Nat.sqrt_le_self size
  have hpool : ∀ y ∈ (List.range (Nat.sqrt size)).map vals, P y := by
    intro y hy
    rcases List.mem_map.mp hy with ⟨k, hk, rfl⟩
    exact hvals k (List.mem_range.mp hk)
  have hpoollen : ((List.range (Nat.sqrt size)).map vals).length = Nat.sqrt size := by simp
  have hfilled : ∀ y ∈ (List.range (Nat.sqrt size)).map vals ++
      (List.range (size - Nat.sqrt size)).map
        (fun k => ((List.range (Nat.sqrt size)).map vals).getD (sampleIdx k) 0), P y := by
    intro y hy
    rcases List.mem_append.mp hy with hy1 | hy2
    · exact hpool y hy1
    · rcases List.mem_map.mp hy2 with ⟨k, _, rfl⟩
      apply hpool
      apply getD_mem_of_lt
      rw [hpoollen]
      exact hsidx k
  have hlen : ((List.range (Nat.sqrt size)).map vals ++
      (List.range (size - Nat.sqrt size)).map
        (fun k => ((List.range (Nat.sqrt size)).map vals).getD (sampleIdx k) 0)).length = size := by
    simp
    omega
  have hb : ∀ p ∈ (List.range (Nat.sqrt size)).map (fun j => (j, idx j)),
      p.1 < size ∧ p.2 < size := by
    intro p hp
    rcases List.mem_map.mp hp with ⟨j, hj, rfl⟩
    exact ⟨lt_of_lt_of_le (List.mem_range.mp hj) hle, hidx j⟩
  apply hfilled
  apply mem_applySwaps _ _ ?_ x (by simpa using hx)
  rw [hlen]
  exact hb

theorem datasetInit_eq_some (dataT : DT) (size : Nat) (min max : Int)
    (vals : Nat → Int) (sampleIdx idx : Nat → Nat) (h : ¬ max < min) :
    datasetInit dataT size min max vals sampleIdx idx =
      some (genNewData dataT size (List.replicate size 0) max min vals sampleIdx idx).1 := by
  unfold datasetInit
  rw [if_neg h]
  have hsnd : (genNewData dataT size (List.replicate size 0) max min vals sampleIdx idx).2
      = false := by
    rw [genNewData_snd]
    exact decide_eq_false h
  simp [hsnd]

/-! ## Claims -/

/-- C1 (code bug): the claim says `genNewData(min, max)` raises InvalidRange
iff `max < min`.  In the source, `genNewData` forwards its two arguments
swapped into `genRandomData`/`genUniqueData`, whose own range check then
throws exactly when `min < max`.  Concretely, on a `Dataset<int,1,DT::RANDOM>`
holding `[7]`: `genNewData(0, 1000)` — the declared default arguments —
throws although `max ≥ min` (and leaves the buffer `[7]` untouched), while
`genNewData(1000, 0)` succeeds and overwrites although `max < min`. -/
theorem genNewData_swapped_args_bug :
    genNewData DT.RANDOM 1 [7] 0 1000 (fun _ => 5) (fun _ => 0) (fun _ => 0) = ([7], true) ∧
    genNewData DT.RANDOM 1 [7] 1000 0 (fun _ => 5) (fun _ => 0) (fun _ => 0) = ([5], false) :=
  ⟨rfl, rfl⟩

/-- C2 (code bug): the claim says a SORTED dataset satisfies
`element[i] ≤ element[i+1]` in the ordinary order of the element type.  The
comparator lambda at line 123 takes its parameters as `size_t`, so signed
elements are compared after conversion modulo `2 ^ 64` and negative values
sort *after* non-negative ones.  Concretely, `Dataset<int, 2, DT::SORTED>`
with bounds `min = -1 ≤ max = 0` and draws `[-1, 0]` constructs the buffer
`[0, -1]`, whose adjacent pair violates `element[0] ≤ element[1]`. -/
theorem sorted_comparator_bug :
    ∃ l, datasetInit DT.SORTED 2 (-1) 0 (fun k => if k = 0 then -1 else 0)
        (fun _ => 0) (fun _ => 0) = some l ∧
      ¬ (l.getD 0 0 ≤ l.getD 1 0) :=
  ⟨[0, -1], by decide, by decide⟩

/-- C7 (code bug): the claim says a REVERSE_SORTED dataset satisfies
`element[i] ≥ element[i+1]` in the ordinary order of the element type.  The
comparator lambda at line 130 takes its parameters as `size_t`, so negative
values sort *before* non-negative ones in the descending sort.  Concretely,
`Dataset<int, 2, DT::REVERSE_SORTED>` with bounds `min = -1 ≤ max = 0` and
draws `[0, -1]` constructs the buffer `[-1, 0]`, whose adjacent pair violates
`element[0] ≥ element[1]`. -/
theorem reverseSorted_comparator_bug :
    ∃ l, datasetInit DT.REVERSE_SORTED 2 (-1) 0 (fun k => if k = 0 then 0 else -1)
        (fun _ => 0) (fun _ => 0) = some l ∧
      ¬ (l.getD 0 0 ≥ l.getD 1 0) :=
  ⟨[-1, 0], by decide, by decide⟩

/-- C9 (confirmed): the iteration range covers exactly the stored elements in
storage order: `end() = begin() + length`, the element visited at offset `i`
from `begin()` is `operator[](i)` for every `i < length`, and `get()` returns
the same address as `begin()`. -/
theorem iteration_range_exact (d : Dataset) :
    d.endPtr = d.beginPtr + d.size ∧
    (∀ i, i < d.size → d.deref (d.beginPtr + i) = d.opIndex i) ∧
    d.getPtr = d.beginPtr := by
  refine ⟨rfl, ?_, rfl⟩
  intro i _
  simp [Dataset.deref, Dataset.beginPtr, Dataset.opIndex, Nat.add_sub_cancel_left]

/-- Witness for C9 at a concrete dataset: base address 100, two elements
`[5, 7]`; the element visited at offset 1 from `begin()` is `operator[](1)`. -/
theorem iteration_range_exact_witness :
    Dataset.deref ⟨100, 2, [5, 7], rfl⟩ (Dataset.beginPtr ⟨100, 2, [5, 7], rfl⟩ + 1) =
      Dataset.opIndex ⟨100, 2, [5, 7], rfl⟩ 1 :=
  (iteration_range_exact ⟨100, 2, [5, 7], rfl⟩).2.1 1 (by decide)

/-- C8 (confirmed): constructing with `max < min` throws InvalidRange and
aborts object creation (no instance exists); constructing with `max ≥ min`
succeeds and immediately generates all `length` slots. -/
theorem constructor_invalidRange_iff (dataT : DT) (size : Nat) (min max : Int)
    (vals : Nat → Int) (sampleIdx idx : Nat → Nat) :
    (max < min → datasetInit dataT size min max vals sampleIdx idx = none) ∧
    (min ≤ max → ∃ l, datasetInit dataT size min max vals sampleIdx idx = some l ∧
      l.length = size) := by
  constructor
  · intro h
    unfold datasetInit
    rw [if_pos h]
  · intro hmm
    have h : ¬ max < min := not_lt.mpr hmm
    rw [datasetInit_eq_some dataT size min max vals sampleIdx idx h]
    refine ⟨_, rfl, ?_⟩
    unfold genNewData
    split
    · exact genUniqueData_fst_length size _ min max vals sampleIdx idx h
    · exact genRandomData_fst_length dataT size _ min max vals idx h

/-- Witness for C8: with `min = 5 > max = 3` construction aborts; with
`min = 0 ≤ max = 9` it succeeds and generates 2 slots. -/
theorem constructor_invalidRange_iff_witness :
    datasetInit DT.RANDOM 2 5 3 (fun _ => 5) (fun _ => 0) (fun _ => 0) = none ∧
    ∃ l, datasetInit DT.RANDOM 2 0 9 (fun _ => 5) (fun _ => 0) (fun _ => 0) = some l ∧
      l.length = 2 :=
  ⟨(constructor_invalidRange_iff DT.RANDOM 2 5 3 (fun _ => 5) (fun _ => 0) (fun _ => 0)).1
      (by decide),
   (constructor_invalidRange_iff DT.RANDOM 2 0 9 (fun _ => 5) (fun _ => 0) (fun _ => 0)).2
      (by decide)⟩

/-- C4 (confirmed): for every distribution kind, constructing with
`length ≥ 1` and `max ≥ min` produces a dataset all of whose elements lie in
the closed interval `[min, max]`.  The hypotheses on the streams are exactly
the guarantees of the `uniform_int_distribution` objects the source draws
from: value draws in `[min, max]`, `randomIndex` draws in `[0, size-1]`,
`randomSampleIndex` draws in `[0, sqrt(size)-1]`. -/
theorem constructor_elements_in_range (dataT : DT) (size : Nat) (min max : Int)
    (vals : Nat → Int) (sampleIdx idx : Nat → Nat)
    (hsize : 1 ≤ size) (hmm : min ≤ max)
    (hvals : ∀ k, min ≤ vals k ∧ vals k ≤ max)
    (hsidx : ∀ k, sampleIdx k < Nat.sqrt size) (hidx : ∀ k, idx k < size) :
    ∃ l, datasetInit dataT size min max vals sampleIdx idx = some l ∧
      ∀ x ∈ l, min ≤ x ∧ x ≤ max := by
  have h : ¬ max < min := not_lt.mpr hmm
  rw [datasetInit_eq_some dataT size min max vals sampleIdx idx h]
  refine ⟨_, rfl, ?_⟩
  unfold genNewData
  split
  · exact genUniqueData_mem (fun x => min ≤ x ∧ x ≤ max) size _ min max vals sampleIdx idx h
      (fun k _ => hvals k) hsidx hidx
  · exact genRandomData_mem (fun x => min ≤ x ∧ x ≤ max) dataT size _ min max vals idx h
      (fun k _ => hvals k) hidx

/-- Witness for C4: FEW_UNIQUE, length 4, bounds [0, 9], all value draws 3,
all index draws 0 (within `[0, 3]` and `[0, sqrt(4)-1] = [0, 1]`). -/
theorem constructor_elements_in_range_witness :
    ∃ l, datasetInit DT.FEW_UNIQUE 4 0 9 (fun _ => 3) (fun _ => 0) (fun _ => 0) = some l ∧
      ∀ x ∈ l, (0 : Int) ≤ x ∧ x ≤ 9 :=
  constructor_elements_in_range DT.FEW_UNIQUE 4 0 9 (fun _ => 3) (fun _ => 0) (fun _ => 0)
    (by decide) (by decide) (fun _ => by norm_num)
    (fun _ => by rw [sqrt_four_eq]; norm_num)
    (fun _ => by norm_num)

/-- C10 (confirmed): for every distribution kind, regenerating with equal
bounds `genNewData(m, m)` succeeds (the swapped forwarding is harmless since
`m < m` is false either way) and every one of the `length` slots afterwards
equals `m`: both inner `uniform_int_distribution<T>(m, m)` objects can only
draw `m`. -/
theorem genNewData_equal_bounds_const (dataT : DT) (size : Nat) (buf : List Int) (m : Int)
    (vals : Nat → Int) (sampleIdx idx : Nat → Nat)
    (hvals : ∀ k, vals k = m)
    (hsidx : ∀ k, sampleIdx k < Nat.sqrt size) (hidx : ∀ k, idx k < size) :
    (genNewData dataT size buf m m vals sampleIdx idx).2 = false ∧
    (genNewData dataT size buf m m vals sampleIdx idx).1.length = size ∧
    ∀ x ∈ (genNewData dataT size buf m m vals sampleIdx idx).1, x = m := by
  have h : ¬ (m : Int) < m := lt_irrefl m
  refine ⟨?_, ?_, ?_⟩
  · rw [genNewData_snd]
    exact decide_eq_false h
  · unfold genNewData
    split
    · exact genUniqueData_fst_length size buf m m vals sampleIdx idx h
    · exact genRandomData_fst_length dataT size buf m m vals idx h
  · unfold genNewData
    split
    · exact genUniqueData_mem (fun x => x = m) size buf m m vals sampleIdx idx h
        (fun k _ => hvals k) hsidx hidx
    · exact genRandomData_mem (fun x => x = m) dataT size buf m m vals idx h
        (fun k _ => hvals k) hidx

/-- Witness for C10: FEW_UNIQUE, length 2, prior buffer `[9, 9]`,
`genNewData(5, 5)` succeeds and every slot becomes 5. -/
theorem genNewData_equal_bounds_const_witness :
    (genNewData DT.FEW_UNIQUE 2 [9, 9] 5 5 (fun _ => 5) (fun _ => 0) (fun _ => 0)).2 = false ∧
    (genNewData DT.FEW_UNIQUE 2 [9, 9] 5 5 (fun _ => 5) (fun _ => 0) (fun _ => 0)).1.length = 2 ∧
    ∀ x ∈ (genNewData DT.FEW_UNIQUE 2 [9, 9] 5 5 (fun _ => 5) (fun _ => 0) (fun _ => 0)).1,
      x = 5 :=
  genNewData_equal_bounds_const DT.FEW_UNIQUE 2 [9, 9] 5 (fun _ => 5) (fun _ => 0) (fun _ => 0)
    (fun _ => rfl) (fun _ => by rw [sqrt_two_eq]; norm_num) (fun _ => by norm_num)

/-- C5 (confirmed): after FEW_UNIQUE generation the number of distinct values
in the buffer is at most `floor(sqrt(length))`, and in particular at most 1
when `length < 4`: every final slot holds one of the at most `sqrt(size)`
pool draws. -/
theorem fewUnique_distinct_le (size : Nat) (min max : Int)
    (vals : Nat → Int) (sampleIdx idx : Nat → Nat)
    (hsize : 1 ≤ size) (hmm : min ≤ max)
    (hsidx : ∀ k, sampleIdx k < Nat.sqrt size) (hidx : ∀ k, idx k < size) :
    ∃ l, datasetInit DT.FEW_UNIQUE size min max vals sampleIdx idx = some l ∧
      l.toFinset.card ≤ Nat.sqrt size ∧ (size < 4 → l.toFinset.card ≤ 1) := by
  have h : ¬ max < min := not_lt.mpr hmm
  rw [datasetInit_eq_some DT.FEW_UNIQUE size min max vals sampleIdx idx h]
  refine ⟨_, rfl, ?_⟩
  have hmem : ∀ x ∈ (genNewData DT.FEW_UNIQUE size (List.replicate size 0) max min vals
      sampleIdx idx).1, x ∈ (List.range (Nat.sqrt size)).map vals := by
    unfold genNewData
    rw [if_pos rfl]
    exact genUniqueData_mem (fun x => x ∈ (List.range (Nat.sqrt size)).map vals) size _
      min max vals sampleIdx idx h
      (fun k hk => List.mem_map.mpr ⟨k, List.mem_range.mpr hk, rfl⟩) hsidx hidx
  have hcard : (genNewData DT.FEW_UNIQUE size (List.replicate size 0) max min vals
      sampleIdx idx).1.toFinset.card ≤ Nat.sqrt size := by
    have hsub : (genNewData DT.FEW_UNIQUE size (List.replicate size 0) max min vals
        sampleIdx idx).1.toFinset ⊆ ((List.range (Nat.sqrt size)).map vals).toFinset := by
      intro x hx
      exact List.mem_toFinset.mpr (hmem x (List.mem_toFinset.mp hx))
    calc (genNewData DT.FEW_UNIQUE size (List.replicate size 0) max min vals
        sampleIdx idx).1.toFinset.card
        ≤ ((List.range (Nat.sqrt size)).map vals).toFinset.card := Finset.card_le_card hsub
      _ ≤ ((List.range (Nat.sqrt size)).map vals).length := List.toFinset_card_le _
      _ = Nat.sqrt size := by simp
  refine ⟨hcard, fun h4 => le_trans hcard ?_⟩
  calc Nat.sqrt size ≤ Nat.sqrt 3 := Nat.sqrt_le_sqrt (by omega)
    _ = 1 := sqrt_three_eq

/-- Witness for C5: FEW_UNIQUE, length 2 (< 4), bounds [0, 100], pool draw 7,
sample and swap index draws 0: at most `sqrt 2 = 1` distinct value. -/
theorem fewUnique_distinct_le_witness :
    ∃ l, datasetInit DT.FEW_UNIQUE 2 0 100 (fun _ => 7) (fun _ => 0) (fun _ => 0) = some l ∧
      l.toFinset.card ≤ Nat.sqrt 2 ∧ (2 < 4 → l.toFinset.card ≤ 1) :=
  fewUnique_distinct_le 2 0 100 (fun _ => 7) (fun _ => 0) (fun _ => 0)
    (by decide) (by decide) (fun _ => by rw [sqrt_two_eq]; norm_num) (fun _ => by norm_num)

/-- C3 (counterexample): the claim says every length < 4 yields 0 perturbation
swaps — "floor(sqrt(sqrt(length))) rounds down to 0" — leaving the sequence
fully sorted.  In fact `floor(sqrt(sqrt(2))) = 1`, and the one swap can
unsort the buffer: with length 2, bounds [0, 1], draws `[0, 1]` and swap
index draws `(0, 1)`, the constructed buffer is `[1, 0]`, which is not
sorted. -/
theorem nearlySorted_small_swap_counterexample :
    nearlySortedSwapCount 2 = 1 ∧
    ∃ l, datasetInit DT.NEARLY_SORTED 2 0 1 (fun k => if k = 0 then 0 else 1)
        (fun _ => 0) (fun k => if k = 0 then 0 else 1) = some l ∧
      ¬ (l.getD 0 0 ≤ l.getD 1 0) := by
  have hc : nearlySortedSwapCount 2 = 1 := by
    rw [nearlySortedSwapCount, sqrt_two_eq, Nat.sqrt_one]
  refine ⟨hc, [1, 0], ?_, by decide⟩
  simp only [datasetInit, genNewData, genRandomData, hc]
  decide

/-- C3 (amended, proved): for every length with `1 ≤ length < 4` (indeed for
any `length < 16`) the NEARLY_SORTED perturbation count
`floor(sqrt(sqrt(length)))` is 1, not 0: the constructed buffer is the
ascending-sorted draw with exactly one pair of independently drawn positions
exchanged, and need not be fully sorted. -/
theorem nearlySorted_small_one_swap (size : Nat) (min max : Int)
    (vals : Nat → Int) (sampleIdx idx : Nat → Nat)
    (h1 : 1 ≤ size) (h4 : size < 4) (hmm : min ≤ max) :
    nearlySortedSwapCount size = 1 ∧
    datasetInit DT.NEARLY_SORTED size min max vals sampleIdx idx =
      some (listSwap (List.insertionSort ltSizeT ((List.range size).map vals))
        (idx 0) (idx 1)) := by
  have hc := nearlySortedSwapCount_small size h1 h4
  have h : ¬ max < min := not_lt.mpr hmm
  refine ⟨hc, ?_⟩
  rw [datasetInit_eq_some DT.NEARLY_SORTED size min max vals sampleIdx idx h]
  unfold genNewData
  rw [if_neg (by decide : ¬ (DT.NEARLY_SORTED = DT.FEW_UNIQUE))]
  unfold genRandomData
  rw [if_neg h]
  simp [hc, applySwaps]

/-- Witness for the amended C3: length 2, bounds [0, 1], draws `[0, 1]`, swap
index draws `(0, 1)`. -/
theorem nearlySorted_small_one_swap_witness :
    nearlySortedSwapCount 2 = 1 ∧
    datasetInit DT.NEARLY_SORTED 2 0 1 (fun k => if k = 0 then 0 else 1)
      (fun _ => 0) (fun k => if k = 0 then 0 else 1) =
      some (listSwap (List.insertionSort ltSizeT
        ((List.range 2).map (fun k => if k = 0 then 0 else 1)))
        ((fun k => if k = 0 then 0 else 1) 0) ((fun k => if k = 0 then 0 else 1) 1)) :=
  nearlySorted_small_one_swap 2 0 1 (fun k => if k = 0 then 0 else 1)
    (fun _ => 0) (fun k => if k = 0 then 0 else 1) (by decide) (by decide) (by decide)

/-- C6 (code bug): the claim says a NEARLY_SORTED buffer differs from the
non-decreasing sorted permutation of itself in at most
`2 * floor(sqrt(sqrt(length)))` positions.  Because the line-123 comparator
compares elements after `size_t` conversion, negative values are placed
*after* non-negative ones by the initial sort, so the buffer can differ from
its genuinely sorted permutation in arbitrarily many positions.  Concretely:
length 5, bounds [-1, 0], draws `[-1, -1, -1, 0, 0]`, and swap draws `(0, 0)`
(a no-op swap; `floor(sqrt(sqrt(5))) = 1` swap is performed) give the buffer
`[0, 0, -1, -1, -1]`, which differs from its sorted permutation
`[-1, -1, -1, 0, 0]` in 4 positions, exceeding the claimed bound of 2. -/
theorem nearlySorted_deviation_bug :
    ∃ l, datasetInit DT.NEARLY_SORTED 5 (-1) 0 (fun k => if k < 3 then -1 else 0)
        (fun _ => 0) (fun _ => 0) = some l ∧
      diffPositions l (sortAscInt l) = 4 ∧
      ¬ (diffPositions l (sortAscInt l) ≤ 2 * nearlySortedSwapCount 5) := by
  have hc : nearlySortedSwapCount 5 = 1 := by
    rw [nearlySortedSwapCount, sqrt_five_eq, sqrt_two_eq]
  refine ⟨[0, 0, -1, -1, -1], ?_, by decide, ?_⟩
  · simp only [datasetInit, genNewData, genRandomData, hc]
    decide
  · rw [hc]
    decide
